import Mathlib

/-!
Shallow embedding of the btcex matching engine and ledger
(src/models/account.py, src/models/asset.py, src/models/order.py,
src/models/contract.py, src/market/market.py).

Modelling conventions:
* `datetime` values and `Interval` durations are integers (`Time := Int`);
  the ambient clock `datetime.now()` becomes an explicit `now` parameter.
* `Decimal` / `Numeric` money values are exact rationals (`Rat`).
* Database rows are Lean structures; object references are modelled by ids
  plus a lookup in the session state, which mirrors the SQLAlchemy identity
  map (all Python references to one row see the same current attributes).
* A Python function that can raise is embedded with `Except PyErr`;
  `PyErr.market e` is a `MarketException` (with `OrderExpiredError` as the
  sub-kind `MarketErr.orderExpired`), `PyErr.attributeError`,
  `PyErr.typeError` and `PyErr.zeroDivision` are the builtin exceptions the
  code paths can hit.
* The embedding tracks the in-memory session state.  `session.commit()` /
  `session.rollback()` points are noted in comments; the only rollback in
  the sources sits in a branch shown dead below, so state threading is
  plain.
-/

namespace Btcex

abbrev Time := Int

/-- Order directions, src/models/consts.py `DirectionType`. -/
inductive Direction where
  | bid
  | ask
deriving DecidableEq, Repr

/-- Order kinds, src/models/consts.py `OrderType`. -/
inductive OrderKind where
  | market_order
  | limit_order
deriving DecidableEq, Repr

/-- Order states, src/models/consts.py `OrderStateType`. -/
inductive OrderState where
  | created
  | in_market
  | executed
  | cancelled
deriving DecidableEq, Repr

/-- Kinds of `MarketException` raised in src/market/market.py, identified by
the raise site (the Python strings are elided). -/
inductive MarketErr where
  | notInMarket
  | alreadyExecuted
  | orderExpired
  | sameDirection
  | differentContracts
  | noPrice
  | badPrice
  | notCreated
deriving DecidableEq, Repr

/-- Python exceptions observable from the embedded operations.  `market e`
is a `MarketException` (`OrderExpiredError` included, as it subclasses it);
the other constructors are builtin exceptions reachable in the sources. -/
inductive PyErr where
  | market (e : MarketErr)
  | attributeError
  | typeError
  | zeroDivision
deriving DecidableEq, Repr

/-- src/models/asset.py `Asset`: id, name, previous_name, removed_at. -/
structure Asset where
  id : Nat
  name : Option String
  previous_name : Option String
  removed_at : Option Time
deriving DecidableEq, Repr

/-- Modelled from the spec: the `removed` attribute of `Asset` is read by
`Holding.create_holding` (src/models/account.py line 71) and
`Order.create_order` (src/models/order.py line 55) but its definition is not
under src/.  Spec section 3 defines the removed lifecycle state as name
cleared and `removed_at` set, which `Asset.remove` establishes atomically,
so the predicate is `removed_at` being set. -/
def Asset.removed (a : Asset) : Bool :=
  a.removed_at.isSome

/-- src/models/asset.py `Asset.remove`: simultaneous assignment clears
`name`, moves the old `name` into `previous_name`, and stamps `removed_at`
with the current time.  (The `session.add` is the identity on state.) -/
def Asset.remove (now : Time) (a : Asset) : Asset :=
  { a with name := none, previous_name := a.name, removed_at := some now }

/-- src/models/account.py `Holding`: one append-only ledger row.  `user` and
`asset` are the row ids of the referenced user and asset. -/
structure Holding where
  user : Nat
  asset : Nat
  volume : Rat
  source : String
  description : Option String
deriving DecidableEq, Repr

/-- The balance used by `Holding.current_holdings_for_user` /
`User.volume_of_asset`: sum of all holding volumes for one (user, asset)
pair (a `defaultdict` lookup, hence 0 with no history). -/
def balanceOf (hs : List Holding) (u a : Nat) : Rat :=
  ((hs.filter (fun h => h.user == u && h.asset == a)).map Holding.volume).sum

/-- src/models/account.py `Holding.create_holding`.  The `asset` argument is
the Python object reference: `none` models passing `None` (or a dangling
relationship), on which the body's first attribute access (`asset.id`,
`asset.removed`) raises `AttributeError`.  Otherwise the current row is
looked up in `assets`.  Returns `.ok none` where Python returns `None`
(removed asset, falsy volume, or a negative volume that would drive the
(user, asset) sum below zero), else `.ok (some h)` with the new row. -/
def create_holding (assets : List Asset) (hs : List Holding) (u : Nat)
    (a : Option Nat) (v : Rat) : Except PyErr (Option Holding) :=
  match a with
  | none => .error .attributeError
  | some aid =>
    match assets.find? (fun x => x.id == aid) with
    | none => .error .attributeError
    | some asset =>
      if asset.removed then .ok none
      else if v = 0 then .ok none
      else if v < 0 ∧ balanceOf hs u aid + v < 0 then .ok none
      else .ok (some ⟨u, aid, v, "InternalTrade", none⟩)

/-- src/models/account.py `User.increase_volume_of_asset`: create a holding
and, when one is returned, add it to the session; otherwise the ledger is
left unchanged (a warning is logged). -/
def increase_volume_of_asset (assets : List Asset) (hs : List Holding)
    (u : Nat) (a : Option Nat) (v : Rat) : Except PyErr (List Holding) :=
  match create_holding assets hs u a v with
  | .error e => .error e
  | .ok none => .ok hs
  | .ok (some h) => .ok (hs ++ [h])

/-- src/models/account.py `User.decrease_volume_of_asset`: same with the
negated volume. -/
def decrease_volume_of_asset (assets : List Asset) (hs : List Holding)
    (u : Nat) (a : Option Nat) (v : Rat) : Except PyErr (List Holding) :=
  increase_volume_of_asset assets hs u a (-v)

/-- src/models/account.py `Holding.users_that_hold_asset`: group the
holdings of one asset by user and sum each group (users listed in order of
first appearance; SQL leaves the group order unspecified). -/
def users_that_hold_asset (hs : List Holding) (aid : Nat) : List (Nat × Rat) :=
  let rows := hs.filter (fun h => h.asset == aid)
  let users := (rows.map Holding.user).dedup
  users.map (fun u => (u, ((rows.filter (fun h => h.user == u)).map Holding.volume).sum))

/-- src/models/order.py `Order`.  `price` and `expires_in` are nullable
columns; `user`, `asset` (the price asset) and `contract` are row ids.
`executed_ask` / `executed_bid` model the one-to-one backrefs from
`Transaction`: they are true when a transaction row references this order
on the respective side. -/
structure Order where
  id : Nat
  created_at : Time
  user : Nat
  price : Option Rat
  asset : Nat
  volume : Rat
  contract : Nat
  expires_in : Option Time
  direction : Direction
  order_type : OrderKind
  state : OrderState
  executed_at : Option Time
  executed_ask : Bool
  executed_bid : Bool
deriving DecidableEq, Repr

/-- src/models/order.py `Order.executed`. -/
def Order.executed (o : Order) : Bool :=
  o.executed_bid || o.executed_ask

/-- src/models/order.py `Order.price_to_volume`, a Python property.
Reading it on an order with a null price raises `TypeError`
(`None / Decimal`); a zero volume raises a decimal division error.  The
callers below evaluate it through `Except`. -/
def Order.price_to_volume (o : Order) : Except PyErr Rat :=
  match o.price with
  | none => .error .typeError
  | some p => if o.volume = 0 then .error .zeroDivision else .ok (p / o.volume)

/-- src/models/order.py `Transaction`.  The two orders are embedded by
value, as built at the construction site in `execute`; `asset` is nullable
and — as `execute` constructs the row without an `asset` keyword — is
`none` there. -/
structure Transaction where
  contract : Nat
  ask_order : Order
  bid_order : Order
  price : Rat
  volume : Rat
  asset : Option Nat
  executed_at : Option Time
deriving DecidableEq, Repr

/-- src/models/contract.py `FuturesContract` (with the `Contract` base
columns inlined): issuer, lifecycle flags, expiry date, collateral volume,
collateral asset id and minted contract-asset id. -/
structure FuturesContract where
  id : Nat
  created_at : Time
  issuer : Nat
  cancelled : Bool
  expired : Bool
  expires_at : Time
  volume : Rat
  asset : Nat
  contract_asset : Nat
deriving DecidableEq, Repr

/-- The database session state threaded through the embedded operations:
the current rows of each table. -/
structure Session where
  assets : List Asset
  contracts : List FuturesContract
  orders : List Order
  holdings : List Holding
  transactions : List Transaction
deriving DecidableEq, Repr

/-- Replace the order row with the same id (the SQLAlchemy identity map
makes mutation of a queried object visible session-wide); if no row has the
id, the object is newly added. -/
def putRow (l : List Order) (o : Order) : List Order :=
  if l.any (fun x => x.id == o.id) then
    l.map (fun x => if x.id == o.id then o else x)
  else l ++ [o]

/-- src/market/market.py `has_expired` (nested in `execute`): true when
`expires_in` is set and `created_at + expires_in > now`. -/
def has_expired (o : Order) (now : Time) : Bool :=
  match o.expires_in with
  | some d => decide (o.created_at + d > now)
  | none => false

/-- src/market/market.py `verify_price` (nested in `execute`): a priced Ask
fails when its price is below the computed price, a priced Bid fails when
its price is above it; null-priced orders always pass. -/
def verify_price (o : Order) (p : Rat) : Bool :=
  match o.price with
  | none => true
  | some op =>
    if o.direction = .ask ∧ op < p then false
    else if o.direction = .bid ∧ op > p then false
    else true

/-- Lines 46-62 of src/market/market.py: the traded price.  The earlier
order by `created_at` is the first argument on ties; with exactly one null
price the other side's price is taken, otherwise max for an earliest Ask
and min for an earliest Bid. -/
def formedPrice (first_order second_order : Order) : Option Rat :=
  let (earliest_order, latest_order) :=
    if first_order.created_at ≤ second_order.created_at then
      (first_order, second_order)
    else (second_order, first_order)
  match earliest_order.price, latest_order.price with
  | none, some lp => some lp
  | some ep, none => some ep
  | some ep, some lp =>
    if earliest_order.direction = .ask then some (max ep lp) else some (min ep lp)
  | none, none => none

/-- Lines 11-89 of src/market/market.py `execute`: the validation cascade,
price formation, the mutation of both orders to Executed, and the
construction of the `Transaction` row (no `asset` keyword is passed, so its
`asset` column is null).  Returns the mutated orders together with the
built transaction; the settlement attempt (lines 91-99) is
`execute_and_settle` below.  The `isinstance` guard of lines 12-14 is
discharged by typing. -/
def executeChecks (now : Time) (first_order second_order : Order) :
    Except MarketErr (Order × Order × Transaction) :=
  if first_order.state ≠ OrderState.in_market ∨ second_order.state ≠ OrderState.in_market then
    .error .notInMarket
  else if first_order.executed || second_order.executed then
    .error .alreadyExecuted
  else if has_expired first_order now || has_expired second_order now then
    .error .orderExpired
  else if first_order.direction = second_order.direction then
    .error .sameDirection
  else if first_order.contract ≠ second_order.contract then
    .error .differentContracts
  else if first_order.price = none ∧ second_order.price = none then
    .error .noPrice
  else
    let volume := min first_order.volume second_order.volume
    match formedPrice first_order second_order with
    | none => .error .noPrice
    | some price =>
      if ¬ verify_price first_order price ∨ ¬ verify_price second_order price then
        .error .badPrice
      else
        let first_done := { first_order with executed_at := some now, state := .executed }
        let second_done := { second_order with executed_at := some now, state := .executed }
        let first_order_is_ask_order := first_done.direction = Direction.ask
        let ask_order :=
          if first_order_is_ask_order then
            { first_done with executed_ask := true }
          else { second_done with executed_ask := true }
        let bid_order :=
          if first_order_is_ask_order then
            { second_done with executed_bid := true }
          else { first_done with executed_bid := true }
        let first_out := if first_order_is_ask_order then ask_order else bid_order
        let second_out := if first_order_is_ask_order then bid_order else ask_order
        .ok (first_out, second_out,
          { contract := first_order.contract
            ask_order := ask_order
            bid_order := bid_order
            price := price
            volume := volume
            asset := none
            executed_at := none })

/-- src/models/order.py `Transaction.execute_trade`: no-op (returns `None`)
when `executed_at` is already set; otherwise credits the bid user with
`volume` of the contract asset, then the ask user with `price` of
`tx.asset` — which is null as built by `execute`, so that second
`create_holding` dereferences `None` and raises `AttributeError` (after the
bid-side credit already joined the session). -/
def execute_trade (now : Time) (s : Session) (t : Transaction) :
    Except (PyErr × List Holding) (Option (List Holding × Transaction)) :=
  match t.executed_at with
  | some _ => .ok none
  | none =>
    let contract_asset : Option Nat :=
      (s.contracts.find? (fun c => c.id == t.contract)).map FuturesContract.contract_asset
    match increase_volume_of_asset s.assets s.holdings t.bid_order.user contract_asset t.volume with
    | .error e => .error (e, s.holdings)
    | .ok hs1 =>
      match increase_volume_of_asset s.assets hs1 t.ask_order.user t.asset t.price with
      | .error e => .error (e, hs1)
      | .ok hs2 => .ok (some (hs2, { t with executed_at := some now }))

/-- Observable outcome of an embedded operation: a Python exception
propagating to the caller, or a normal return value; both carry the session
state left behind. -/
inductive OpOutcome (α : Type) where
  | raised (e : PyErr) (s : Session)
  | ok (a : α) (s : Session)
deriving DecidableEq, Repr

/-- Lines 11-99 of src/market/market.py `execute`: checks and build
(`executeChecks`), then `session.add_all`, then the settlement attempt.
`except MarketException` only wraps `execute_trade`, whose failure mode is
`AttributeError` (null transaction asset), so the rollback branch is dead;
an `AttributeError` propagates with the uncommitted mutations still in the
session.  Returns the transaction on commit, `none` where Python falls off
the end returning `None`. -/
def execute (now : Time) (s : Session) (first_order second_order : Order) :
    OpOutcome (Option Transaction) :=
  match executeChecks now first_order second_order with
  | .error e => .raised (.market e) s
  | .ok (first_done, second_done, tx) =>
    let s1 : Session :=
      { s with orders := putRow (putRow s.orders first_done) second_done,
               transactions := s.transactions ++ [tx] }
    match execute_trade now s1 tx with
    | .error (.market _, _) =>
      -- `except MarketException`: rollback to the last commit and return None
      .ok none s
    | .error (e, hs) => .raised e { s1 with holdings := hs }
    | .ok none =>
      -- `execute_trade` returned None (already executed): fall through, no commit
      .ok none s1
    | .ok (some (hs2, tx2)) =>
      -- commit
      .ok (some tx2)
        { s1 with holdings := hs2,
                  transactions := s.transactions ++ [tx2] }

/-- src/models/order.py `Order.cancel`: from Created or InMarket, transition
to Cancelled and refund the escrowed funds — the contract asset and order volume for
an Ask, the price asset and (nullable) price for a Bid; `create_holding`
treats a `None` volume as falsy, so a null-priced Bid refunds nothing.
Returns false from any other state. -/
def Order.cancel (s : Session) (o : Order) : OpOutcome Bool :=
  if o.state = OrderState.created ∨ o.state = OrderState.in_market then
    let av : Except PyErr (Nat × Option Rat) :=
      if o.direction = .ask then
        match s.contracts.find? (fun c => c.id == o.contract) with
        | none => .error .attributeError
        | some c => .ok (c.contract_asset, some o.volume)
      else .ok (o.asset, o.price)
    match av with
    | .error e => .raised e s
    | .ok (aid, vol?) =>
      let s2 : Session := { s with orders := putRow s.orders { o with state := OrderState.cancelled } }
      let hsE : Except PyErr (List Holding) :=
        match vol? with
        | none =>
          -- the asset attributes are read before the falsy-volume bailout
          match s2.assets.find? (fun x => x.id == aid) with
          | none => .error .attributeError
          | some _ => .ok s2.holdings
        | some v => increase_volume_of_asset s2.assets s2.holdings o.user (some aid) v
      match hsE with
      | .error e => .raised e s2
      | .ok hs => .ok true { s2 with holdings := hs }
  else .ok false s

/-- Direction of the counterparty searched by `put_order`. -/
def reciprocalDirection (d : Direction) : Direction :=
  match d with
  | .ask => .bid
  | .bid => .ask

/-- The filters shared by both candidate queries of `put_order`: same
contract, reciprocal direction, resting InMarket, different user. -/
def baseCandidates (s : Session) (o : Order) : List Order :=
  s.orders.filter (fun r =>
    r.contract == o.contract ∧ r.direction = reciprocalDirection o.direction ∧
    r.state = OrderState.in_market ∧ r.user ≠ o.user)

/-- First row of a query under a strict precedes-relation: the earliest
minimal element (`ORDER BY ... LIMIT 1`). -/
def queryFirst (before : Order → Order → Bool) (l : List Order) : Option Order :=
  l.foldl
    (fun acc r =>
      match acc with
      | none => some r
      | some b => if before r b then some r else some b)
    none

/-- Successive SQLAlchemy `order_by` calls append criteria, so the market
and phase-one limit queries of `put_order` sort by the base query's
`Order.id` first and only then by price; `descFirst` selects the direction
of the appended price criterion.  Ids are primary keys, hence decisive. -/
def beforeIdThenPrice (descFirst : Bool) (a b : Order) : Bool :=
  if a.id ≠ b.id then a.id < b.id
  else
    match a.price, b.price with
    | some x, some y => if descFirst then y < x else x < y
    | _, _ => false

/-- Strict precedes-relation for the phase-two query, which orders by
volume only (ties are left to the database; the embedding keeps the earlier
row). -/
def beforeVolume (descFirst : Bool) (a b : Order) : Bool :=
  if descFirst then b.volume < a.volume else a.volume < b.volume

/-- Lines 117-133 of src/market/market.py: the market-order candidate query
(non-null price, volume bound for the incoming direction) and its first
row under the appended ordering. -/
def marketCounterparty (s : Session) (o : Order) : Option Order :=
  queryFirst (beforeIdThenPrice (o.direction = .ask))
    ((baseCandidates s o).filter (fun r =>
      r.price.isSome &&
      (if o.direction = .ask then o.volume ≤ r.volume else r.volume ≤ o.volume)))

/-- Lines 102-168 of src/market/market.py `put_order`.  An order not in
Created raises `MarketException`; otherwise the order is committed InMarket
and a single counterparty is searched.  Market orders filter on non-null
price and the volume bound and cancel themselves when the result set is
empty; limit orders run the price-crossing phase and then the
price-per-volume phase, resting InMarket when both are empty.  SQL
three-valued logic drops null-priced rows from price comparisons; computing
`price_to_volume` of a null-priced incoming limit order raises `TypeError`,
and a zero volume — on the incoming order or on a priced candidate row
reached by the phase-two division — raises a division error. -/
def put_order (now : Time) (s : Session) (o : Order) :
    OpOutcome (Option Transaction) :=
  if o.state ≠ OrderState.created then .raised (.market .notCreated) s
  else
    let o2 := { o with state := OrderState.in_market }
    -- session.add + commit
    let s1 : Session := { s with orders := putRow s.orders o2 }
    match o2.order_type with
    | .market_order =>
      match marketCounterparty s1 o2 with
      | some reciprocal_order => execute now s1 o2 reciprocal_order
      | none =>
        match Order.cancel s1 o2 with
        | .raised e s2 => .raised e s2
        | .ok _ s2 => .ok none s2
    | .limit_order =>
      let phase1 :=
        (baseCandidates s1 o2).filter (fun r =>
          match r.price, o2.price with
          | some rp, some op => if o2.direction = .ask then op ≤ rp else rp ≤ op
          | _, _ => false)
      match queryFirst (beforeIdThenPrice (o2.direction = .ask)) phase1 with
      | some reciprocal_order => execute now s1 o2 reciprocal_order
      | none =>
        match o2.price_to_volume with
        | .error e => .raised e s1
        | .ok ratio =>
          let base2 := baseCandidates s1 o2
          if base2.any (fun r => r.volume == 0 && r.price.isSome) then
            .raised .zeroDivision s1
          else
            let phase2 := base2.filter (fun r =>
              match r.price with
              | some rp =>
                if o2.direction = .ask then ratio ≤ rp / r.volume else rp / r.volume ≤ ratio
              | none => false)
            match queryFirst (beforeVolume (o2.direction = .ask)) phase2 with
            | some reciprocal_order => execute now s1 o2 reciprocal_order
            | none => .ok none s1

/-- src/models/contract.py `FuturesContract.cancel`: refuse when a
non-issuer holder group exists, when an order on this contract is outside
{Cancelled, Executed}, when expired or past expiry, or when already
cancelled.  On success refund the collateral to the issuer, zero the
issuer's contract-asset balance, soft-remove the contract asset, and then —
keying on the count of *all* order rows, `session.query(Order).count()` —
either delete the contract row or mark it cancelled. -/
def FuturesContract.cancel (now : Time) (s : Session) (c : FuturesContract) :
    OpOutcome Bool :=
  let users_and_holdings := users_that_hold_asset s.holdings c.contract_asset
  if users_and_holdings.any (fun p => p.1 ≠ c.issuer) then .ok false s
  else if s.orders.any (fun r =>
      r.contract == c.id ∧ r.state ≠ OrderState.cancelled ∧ r.state ≠ OrderState.executed) then
    .ok false s
  else if c.expired || decide (c.expires_at < now) then .ok false s
  else if c.cancelled then .ok false s
  else
    match increase_volume_of_asset s.assets s.holdings c.issuer (some c.asset) c.volume with
    | .error e => .raised e s
    | .ok hs1 =>
      match decrease_volume_of_asset s.assets hs1 c.issuer (some c.contract_asset)
          (balanceOf hs1 c.issuer c.contract_asset) with
      | .error e => .raised e { s with holdings := hs1 }
      | .ok hs2 =>
        let assets2 := s.assets.map (fun a =>
          if a.id == c.contract_asset then Asset.remove now a else a)
        let s2 : Session := { s with assets := assets2, holdings := hs2 }
        if s2.orders.length == 0 then
          .ok true { s2 with contracts := s2.contracts.filter (fun x => x.id ≠ c.id) }
        else
          .ok true
            { s2 with contracts := s2.contracts.map (fun x =>
                if x.id == c.id then { x with cancelled := true } else x) }

/-- The distribution loop of `FuturesContract.expire`: each holder group in
turn is credited `volume_sum / total_volume * collateral`; the division
raises `ZeroDivisionError` when the total is zero, at the first iteration,
before any credit. -/
def distributeCollateral (assets : List Asset) (aid : Nat) (collateral total : Rat) :
    List (Nat × Rat) → List Holding → Except PyErr (List Holding)
  | [], hs => .ok hs
  | (u, v) :: rest, hs =>
    if total = 0 then .error .zeroDivision
    else
      match increase_volume_of_asset assets hs u (some aid) (v / total * collateral) with
      | .error e => .error e
      | .ok hs2 => distributeCollateral assets aid collateral total rest hs2

/-- src/models/contract.py `FuturesContract.expire`: return immediately when
already expired; otherwise distribute the collateral over the holder groups
of the contract asset pro rata to their sums and set `expired`.  The method
reads neither the clock nor `cancelled`.  An error of the loop leaves the
session unchanged: it can only occur at the first iteration (zero total, or
the collateral-asset reference dangling). -/
def FuturesContract.expire (s : Session) (c : FuturesContract) : OpOutcome Unit :=
  if c.expired then .ok () s
  else
    let users_and_holdings := users_that_hold_asset s.holdings c.contract_asset
    let total_volume := (users_and_holdings.map Prod.snd).sum
    match distributeCollateral s.assets c.asset c.volume total_volume
        users_and_holdings s.holdings with
    | .error e => .raised e s
    | .ok hs2 =>
      .ok ()
        { s with holdings := hs2,
                 contracts := s.contracts.map (fun x =>
                   if x.id == c.id then { x with expired := true } else x) }

/-!  Reachable ledger states.  Every holding row of the system is created
by `Holding.create_holding` — `User.increase_volume_of_asset` and
`User.decrease_volume_of_asset` wrap it, and those are the only writers
used by order escrow (`Order.create_order`), refund (`Order.cancel`),
settlement (`Transaction.execute_trade`) and the contract lifecycle
(`create_contract`, `cancel`, `expire`) — so a ledger is reachable exactly
when it is built from the empty journal by successful `create_holding`
appends (the asset registry current at each step is existentially free, as
assets change over time). -/
inductive ReachableLedger : List Holding → Prop where
  | nil : ReachableLedger []
  | step {hs : List Holding} {assets : List Asset} {u : Nat} {a : Option Nat}
      {v : Rat} {h : Holding} :
      ReachableLedger hs →
      create_holding assets hs u a v = .ok (some h) →
      ReachableLedger (hs ++ [h])

/-- The price-formation rule exactly as claim C4 words it: E is the order
with the smaller `created_at`, ties on `created_at` broken by the lower id;
with exactly one null price the other side's price is taken, otherwise max
of the two prices when E is an Ask and min when E is a Bid. -/
def claimFormedPrice (a b : Order) : Option Rat :=
  let (e, l) :=
    if a.created_at < b.created_at then (a, b)
    else if b.created_at < a.created_at then (b, a)
    else if a.id ≤ b.id then (a, b)
    else (b, a)
  match e.price, l.price with
  | none, some lp => some lp
  | some ep, none => some ep
  | some ep, some lp =>
    if e.direction = .ask then some (max ep lp) else some (min ep lp)
  | none, none => none

/-- The price-formation rule with the tie-break the code actually has: the
earlier order by `created_at` defines the reference, and a tie on
`created_at` is resolved in favour of the first argument of `execute`
(which in `put_order` is the incoming order), regardless of ids. -/
def amendedFormedPrice (a b : Order) : Option Rat :=
  let e := if a.created_at ≤ b.created_at then a else b
  let l := if a.created_at ≤ b.created_at then b else a
  match e.price, l.price with
  | none, some lp => some lp
  | some ep, none => some ep
  | some ep, some lp =>
    if e.direction = .ask then some (max ep lp) else some (min ep lp)
  | none, none => none

/-- The market-order counterparty selection exactly as claim C5 words it:
among resting counterparties with a non-null price that satisfy the volume
bound, the best-priced one — highest price for an incoming market Ask,
lowest for an incoming market Bid. -/
def claimBestPriced (s : Session) (o : Order) : Option Order :=
  let cands :=
    (baseCandidates s o).filter (fun r =>
      r.price.isSome &&
      (if o.direction = .ask then o.volume ≤ r.volume else r.volume ≤ o.volume))
  queryFirst
    (fun a b =>
      match a.price, b.price with
      | some x, some y => if o.direction = .ask then y < x else x < y
      | _, _ => false)
    cands

/-- Price of the transaction built by a successful validation cascade. -/
def builtPrice (r : Except MarketErr (Order × Order × Transaction)) : Option Rat :=
  match r with
  | .ok (_, _, tx) => some tx.price
  | .error _ => none

/-- The exception of an outcome, if it raised one. -/
def raisedErr {α : Type} (r : OpOutcome α) : Option PyErr :=
  match r with
  | .raised e _ => some e
  | .ok _ _ => none

/-- The returned value of an outcome, if it did not raise. -/
def okResult {α : Type} (r : OpOutcome α) : Option α :=
  match r with
  | .raised _ _ => none
  | .ok a _ => some a

/-- The session state an outcome left behind. -/
def outSession {α : Type} (r : OpOutcome α) : Session :=
  match r with
  | .raised _ s => s
  | .ok _ s => s

/-!  Concrete rows and sessions used by the closed evaluations below. -/

/-- A USD-like price asset. -/
def usdAsset : Asset := ⟨5, some "USD", none, none⟩

/-- A minted contract asset. -/
def futAsset : Asset := ⟨6, some "FUT", none, none⟩

/-- Template order: contract 7, price asset 5, volume 10, resting InMarket
limit Ask with no price, no expiry window, never executed. -/
def baseOrder : Order :=
  ⟨0, 0, 0, none, 5, 10, 7, none, .ask, .limit_order, .in_market, none, false, false⟩

/-- The futures contract behind contract id 7: issuer 1, alive until time
1000, collateral 100 of asset 5, contract asset 6. -/
def c7 : FuturesContract := ⟨7, 0, 1, false, false, 1000, 100, 5, 6⟩

/-- C1 input: an Ask with an expiry window of 100 starting at time 0. -/
def o1a : Order :=
  { baseOrder with id := 1, user := 1, price := some 10, expires_in := some 100 }

/-- C1 input: the matching windowless Bid. -/
def o1b : Order :=
  { baseOrder with id := 2, user := 2, price := some 10, direction := .bid }

/-- C3 input: earliest Ask priced 22. -/
def a3 : Order := { baseOrder with id := 1, user := 1, price := some 22 }

/-- C3 input: later Bid priced 20. -/
def b3 : Order :=
  { baseOrder with id := 2, created_at := 10, user := 2, price := some 20, direction := .bid }

/-- C3 input: earliest Ask priced 20 (the spec's E5 seller). -/
def a3L : Order := { a3 with price := some 20 }

/-- C3 input: later Bid priced 22 (the spec's E5 buyer). -/
def b3H : Order := { b3 with price := some 22 }

/-- C4 input: first argument, a Bid priced 3 created at time 100, id 2. -/
def f4 : Order :=
  { baseOrder with id := 2, created_at := 100, user := 1, price := some 3, direction := .bid }

/-- C4 input: second argument, an Ask priced 5 also created at time 100 but
with the lower id 1. -/
def s4 : Order :=
  { baseOrder with id := 1, created_at := 100, user := 2, price := some 5 }

/-- C4 expected output: the executed Bid side. -/
def c4BidOut : Order :=
  { f4 with executed_at := some 200, state := .executed, executed_bid := true }

/-- C4 expected output: the executed Ask side. -/
def c4AskOut : Order :=
  { s4 with executed_at := some 200, state := .executed, executed_ask := true }

/-- C4 expected output: the transaction built for `f4`/`s4` at time 200. -/
def c4TxOut : Transaction := ⟨7, c4AskOut, c4BidOut, 3, 10, none, none⟩

/-- C5 book: resting Bid id 1 priced 10. -/
def r5a : Order := { baseOrder with id := 1, user := 1, price := some 10, direction := .bid }

/-- C5 book: resting Bid id 2 priced 20 — the better price. -/
def r5b : Order := { baseOrder with id := 2, user := 2, price := some 20, direction := .bid }

/-- C5 input: incoming market Ask of volume 5, still in Created. -/
def m5 : Order :=
  { baseOrder with
    id := 3, created_at := 50, user := 3, volume := 5
    order_type := .market_order, state := .created }

/-- C5 input after admission. -/
def m5im : Order := { m5 with state := OrderState.in_market }

/-- C5 session before `put_order`. -/
def s5 : Session := ⟨[usdAsset, futAsset], [c7], [r5a, r5b], [], []⟩

/-- C5 session as the candidate query sees it (incoming order admitted). -/
def s5im : Session := ⟨[usdAsset, futAsset], [c7], [r5a, r5b, m5im], [], []⟩

/-- C6 book: resting Bid id 1 priced 10. -/
def rb6 : Order := { baseOrder with id := 1, user := 1, price := some 10, direction := .bid }

/-- C6 input: incoming limit Ask priced 5 in Created. -/
def la6 : Order :=
  { baseOrder with id := 2, created_at := 50, user := 2, price := some 5, state := .created }

/-- C6 input after admission. -/
def la6im : Order := { la6 with state := OrderState.in_market }

/-- C6 session before `put_order`. -/
def s6 : Session := ⟨[usdAsset, futAsset], [c7], [rb6], [], []⟩

/-- C6 session when the price check raises: the incoming order is already
committed InMarket. -/
def s6out : Session := ⟨[usdAsset, futAsset], [c7], [rb6, la6im], [], []⟩

/-- C7 contract under cancellation: issuer 10, collateral 1 of asset 5,
contract asset 6, alive until 1000. -/
def c1a : FuturesContract := ⟨1, 0, 10, false, false, 1000, 1, 5, 6⟩

/-- C7 book: one InMarket order owned by user 11 on the *other* contract
(id 2); nothing references contract 1. -/
def oz7 : Order :=
  { baseOrder with id := 9, user := 11, price := some 20, contract := 2, volume := 50 }

/-- C7 session: the issuer holds the whole mint of contract asset 6. -/
def s7 : Session :=
  ⟨[usdAsset, futAsset], [c1a], [oz7], [⟨10, 6, 100, "InternalTrade", none⟩], []⟩

/-- C8 session: the only holder group of contract asset 6 nets to zero
(credited 5, then debited 5). -/
def s8 : Session :=
  ⟨[usdAsset, futAsset], [c1a], [],
    [⟨10, 6, 5, "InternalTrade", none⟩, ⟨10, 6, -5, "InternalTrade", none⟩], []⟩

/-- C8 witness session: no holdings of the contract asset at all. -/
def s8e : Session := ⟨[usdAsset, futAsset], [c1a], [], [], []⟩

/-- C10 contract: already cancelled, not yet expired. -/
def c1c : FuturesContract := { c1a with cancelled := true }

/-- C10 session: cancelled contract whose only holder group nets to zero —
exactly the state `FuturesContract.cancel` leaves behind. -/
def s10 : Session :=
  ⟨[usdAsset, futAsset], [c1c], [],
    [⟨10, 6, 5, "InternalTrade", none⟩, ⟨10, 6, -5, "InternalTrade", none⟩], []⟩

/-- C10 witness session: cancelled contract with a positive holder group. -/
def s10b : Session :=
  ⟨[usdAsset, futAsset], [c1c], [], [⟨10, 6, 100, "InternalTrade", none⟩], []⟩

/-- Balance after appending one row: the old sum plus the row's volume when
the row belongs to the pair. -/
theorem balanceOf_append (hs : List Holding) (h : Holding) (u a : Nat) :
    balanceOf (hs ++ [h]) u a =
      balanceOf hs u a + (if h.user == u && h.asset == a then h.volume else 0) := by
  unfold balanceOf
  rw [List.filter_append, List.map_append, List.sum_append]
  by_cases hc : (h.user == u && h.asset == a) = true
  · simp [List.filter, hc]
  · simp [List.filter, hc]

/-- Inversion of a successful `create_holding`: the returned row carries the
requested user and volume, the volume is nonzero, and a negative volume was
admitted only because the running sum stays nonnegative. -/
theorem create_holding_sound {assets : List Asset} {hs : List Holding} {u : Nat}
    {a : Option Nat} {v : Rat} {h : Holding}
    (H : create_holding assets hs u a v = .ok (some h)) :
    h.user = u ∧ h.volume = v ∧ v ≠ 0 ∧
      (v < 0 → 0 ≤ balanceOf hs u h.asset + v) := by
  unfold create_holding at H
  cases a with
  | none => exact absurd H (by simp)
  | some aid =>
    dsimp only at H
    cases hf : assets.find? (fun x => x.id == aid) with
    | none => rw [hf] at H; exact absurd H (by simp)
    | some asset =>
      rw [hf] at H
      dsimp only at H
      by_cases hrm : asset.removed = true
      · simp [hrm] at H
      · rw [if_neg hrm] at H
        by_cases hz : v = 0
        · simp [hz] at H
        · rw [if_neg hz] at H
          by_cases hneg : v < 0 ∧ balanceOf hs u aid + v < 0
          · simp [hneg] at H
          · rw [if_neg hneg] at H
            have hh : h = ⟨u, aid, v, "InternalTrade", none⟩ := by
              cases H; rfl
            subst hh
            refine ⟨rfl, rfl, hz, ?_⟩
            intro hvlt
            by_contra hlt
            exact hneg ⟨hvlt, by simpa using lt_of_not_le hlt⟩

/-- C2: in every reachable ledger state the holding sum of every
(user, asset) pair is nonnegative — `create_holding` refuses any row that
would drive a running sum negative, and all operations append through it. -/
theorem claim_C2_nonnegative_balances :
    ∀ hs : List Holding, ReachableLedger hs → ∀ u a : Nat, 0 ≤ balanceOf hs u a := by
  intro hs hr
  induction hr with
  | nil => intro u a; simp [balanceOf]
  | @step hs0 assets u0 a0 v h _ hch ih =>
    intro u a
    rw [balanceOf_append]
    obtain ⟨hu, hv, hnz, hneg⟩ := create_holding_sound hch
    by_cases hmatch : (h.user == u && h.asset == a) = true
    · rw [if_pos hmatch]
      have hmu : h.user = u := by
        have := (Bool.and_eq_true _ _).mp hmatch
        exact eq_of_beq this.1
      have hma : h.asset = a := by
        have := (Bool.and_eq_true _ _).mp hmatch
        exact eq_of_beq this.2
      rcases lt_trichotomy v 0 with hlt | hzero | hgt
      · have h2 := hneg hlt
        have huu : u0 = u := by rw [← hu, hmu]
        rw [hv, ← hma, ← huu]
        exact h2
      · exact absurd hzero hnz
      · have h1 := ih u a
        rw [hv]
        exact add_nonneg h1 (le_of_lt hgt)
    · rw [if_neg hmatch]
      simpa using ih u a

/-- Witness for C2 at a concrete reachable ledger: user 0 credits 5 of
asset 1 and then debits all 5; both steps pass `create_holding` and the
resulting sum is nonnegative. -/
theorem claim_C2_nonnegative_balances_witness :
    0 ≤ balanceOf [⟨0, 1, 5, "InternalTrade", none⟩, ⟨0, 1, -5, "InternalTrade", none⟩] 0 1 := by
  have h1 : ReachableLedger ([] ++ [(⟨0, 1, 5, "InternalTrade", none⟩ : Holding)]) :=
    @ReachableLedger.step [] [⟨1, some "BTC", none, none⟩] 0 (some 1) 5
      ⟨0, 1, 5, "InternalTrade", none⟩ ReachableLedger.nil (by rfl)
  have h2 : ReachableLedger
      ([⟨0, 1, 5, "InternalTrade", none⟩] ++ [(⟨0, 1, -5, "InternalTrade", none⟩ : Holding)]) :=
    @ReachableLedger.step [⟨0, 1, 5, "InternalTrade", none⟩] [⟨1, some "BTC", none, none⟩]
      0 (some 1) (-5) ⟨0, 1, -5, "InternalTrade", none⟩ h1
      (by simp [create_holding, balanceOf, Asset.removed])
  exact claim_C2_nonnegative_balances _ h2 0 1

/-- C9 counterexample: removing an already-removed asset is not a no-op —
even at the same timestamp the second `remove` clears `previous_name`, so
the state differs from a single `remove`. -/
theorem claim_C9_counterexample :
    Asset.remove 3 (Asset.remove 3 ⟨1, some "BTC", none, none⟩) ≠
      Asset.remove 3 ⟨1, some "BTC", none, none⟩ ∧
    (Asset.remove 3 (Asset.remove 3 ⟨1, some "BTC", none, none⟩)).previous_name = none ∧
    (Asset.remove 3 ⟨1, some "BTC", none, none⟩).previous_name = some "BTC" := by
  decide

/-- C9 amended: `remove` on an already-removed asset is not a no-op; it
keeps `name` null but overwrites `previous_name` with the now-null name and
restamps `removed_at` with the new call time — only the `name` field is
left unchanged. -/
theorem claim_C9_remove_again_overwrites (a : Asset) (t1 t2 : Time) :
    Asset.remove t2 (Asset.remove t1 a) =
      { id := a.id, name := none, previous_name := none, removed_at := some t2 } ∧
    (Asset.remove t2 (Asset.remove t1 a)).name = (Asset.remove t1 a).name := by
  exact ⟨rfl, rfl⟩

/-- C1: the expiry comparison of `execute` is inverted.  At time 50 both
orders are inside their windows (`created_at + expires_in = 100 > 50`), yet
the validation cascade raises `OrderExpiredError`; at time 200 the Ask's
window has passed (`100 ≤ 200`), yet the cascade succeeds and builds a
transaction. -/
theorem claim_C1_expiry_sign_inverted :
    (executeChecks 50 o1a o1b = .error .orderExpired ∧
      ¬ (o1a.created_at + 100 ≤ 50) ∧ o1a.expires_in = some 100) ∧
    (builtPrice (executeChecks 200 o1a o1b) = some 10 ∧
      o1a.created_at + 100 ≤ 200) := by
  refine ⟨⟨?_, ?_, ?_⟩, ?_, ?_⟩ <;>
    norm_num [executeChecks, builtPrice, o1a, o1b, baseOrder, has_expired,
      verify_price, formedPrice, Order.executed] <;>
    simp

/-- C3: `verify_price` is inverted.  The earliest-Ask-22 / later-Bid-20
pair executes at price 22, above the bid's limit of 20, so the claimed
bound `tx.price ≤ B.price` fails with no `MarketException`; the
spec-conforming earliest-Ask-20 / later-Bid-22 pair (scenario E5), whose
formed price 22 satisfies both limits, is instead rejected with
`MarketException`. -/
theorem claim_C3_price_bound_not_enforced :
    (builtPrice (executeChecks 100 a3 b3) = some 22 ∧
      b3.price = some 20 ∧ ¬ ((22 : Rat) ≤ 20)) ∧
    (executeChecks 100 a3L b3H = .error .badPrice ∧
      a3L.price = some 20 ∧ b3H.price = some 22 ∧
      formedPrice a3L b3H = some 22 ∧ (20 : Rat) ≤ 22 ∧ (22 : Rat) ≤ 22) := by
  refine ⟨⟨?_, ?_, ?_⟩, ?_, ?_, ?_, ?_, ?_, ?_⟩ <;>
    norm_num [executeChecks, builtPrice, a3, b3, a3L, b3H, baseOrder,
      has_expired, verify_price, formedPrice, Order.executed] <;>
    simp <;> norm_num

/-- C4 counterexample: with equal `created_at` the code takes the first
argument (the Bid, id 2) as the earliest order and trades at
min(3, 5) = 3, while the claim's lower-id tie-break picks the Ask (id 1)
and yields max(5, 3) = 5. -/
theorem claim_C4_counterexample :
    builtPrice (executeChecks 200 f4 s4) = some 3 ∧
    claimFormedPrice f4 s4 = some 5 ∧
    f4.created_at = s4.created_at ∧ s4.id < f4.id := by
  refine ⟨?_, ?_, ?_, ?_⟩ <;>
    norm_num [executeChecks, builtPrice, claimFormedPrice, f4, s4, baseOrder,
      has_expired, verify_price, formedPrice, Order.executed] <;>
    simp <;> norm_num

/-- C7: `cancel` keys the delete-or-mark decision on the count of *all*
order rows.  No order references contract 1 — the only order in the
session sits on contract 2 — yet `cancel` succeeds and retains the row
marked cancelled instead of deleting it. -/
theorem claim_C7_cancel_counts_all_orders :
    s7.orders.all (fun r => r.contract ≠ c1a.id) = true ∧
    okResult (FuturesContract.cancel 50 s7 c1a) = some true ∧
    (outSession (FuturesContract.cancel 50 s7 c1a)).contracts =
      [{ c1a with cancelled := true }] := by
  refine ⟨?_, ?_, ?_⟩ <;>
    norm_num [FuturesContract.cancel, okResult, outSession, s7, oz7, c1a,
      baseOrder, usdAsset, futAsset, users_that_hold_asset,
      increase_volume_of_asset, decrease_volume_of_asset, create_holding,
      balanceOf, Asset.removed, Asset.remove] <;>
    simp <;> norm_num

/-- C8 counterexample: the holder groups of contract asset 6 sum to zero
while one group exists, and `expire` raises `ZeroDivisionError` instead of
completing and setting `expired`. -/
theorem claim_C8_counterexample :
    ((users_that_hold_asset s8.holdings c1a.contract_asset).map Prod.snd).sum = 0 ∧
    users_that_hold_asset s8.holdings c1a.contract_asset ≠ [] ∧
    FuturesContract.expire s8 c1a = .raised .zeroDivision s8 := by
  refine ⟨?_, ?_, ?_⟩ <;>
    norm_num [FuturesContract.expire, users_that_hold_asset, s8, c1a,
      distributeCollateral, usdAsset, futAsset]

/-- C10 counterexample: on a contract that is cancelled and not yet expired
— whose holder group nets to zero, exactly the state a successful `cancel`
leaves — `expire` raises `ZeroDivisionError` rather than distributing and
setting `expired = true`. -/
theorem claim_C10_counterexample :
    c1c.cancelled = true ∧ c1c.expired = false ∧
    FuturesContract.expire s10 c1c = .raised .zeroDivision s10 := by
  refine ⟨?_, ?_, ?_⟩ <;>
    norm_num [FuturesContract.expire, users_that_hold_asset, s10, c1c, c1a,
      distributeCollateral, usdAsset, futAsset]

/-- C5: because the appended `order_by(Order.price...)` follows the base
query's `order_by(Order.id)`, the market-order counterparty is the
lowest-id eligible row, not the best-priced one.  With resting Bids id 1 at
10 and id 2 at 20 (both eligible for the incoming market Ask of volume 5),
the code selects id 1 while the claim's best-price rule selects id 2; the
full `put_order` run indeed executes against id 1 (its row ends Executed,
id 2 stays InMarket, the built transaction trades at 10). -/
theorem claim_C5_market_counterparty_by_lowest_id :
    (marketCounterparty s5im m5im).map Order.id = some 1 ∧
    ((marketCounterparty s5im m5im).bind Order.price) = some 10 ∧
    (claimBestPriced s5im m5im).map Order.id = some 2 ∧
    ((claimBestPriced s5im m5im).bind Order.price) = some 20 ∧
    raisedErr (put_order 60 s5 m5) = some .attributeError ∧
    ((outSession (put_order 60 s5 m5)).orders.find? (fun r => r.id == 1)).map
        Order.state = some OrderState.executed ∧
    ((outSession (put_order 60 s5 m5)).orders.find? (fun r => r.id == 2)).map
        Order.state = some OrderState.in_market ∧
    ((outSession (put_order 60 s5 m5)).transactions.map Transaction.price) = [10] := by
  refine ⟨?_, ?_, ?_, ?_, ?_, ?_, ?_, ?_⟩ <;>
    norm_num [marketCounterparty, claimBestPriced, baseCandidates, queryFirst,
      beforeIdThenPrice, reciprocalDirection, put_order, putRow, execute,
      executeChecks, execute_trade, increase_volume_of_asset, create_holding,
      balanceOf, Asset.removed, has_expired, verify_price, formedPrice,
      Order.executed, raisedErr, okResult, outSession, s5, s5im, m5, m5im,
      r5a, r5b, c7, usdAsset, futAsset, baseOrder] <;>
    simp <;> norm_num

/-- C6 counterexample: a limit Ask priced 5 in state Created is admitted
against a resting Bid priced 10; phase one selects the Bid, the formed
price min(10, 5) = 5 fails `verify_price` for the Bid, and the
`MarketException` propagates out of `put_order` instead of yielding a null
result. -/
theorem claim_C6_counterexample :
    put_order 60 s6 la6 = .raised (.market .badPrice) s6out := by
  norm_num [put_order, putRow, baseCandidates, queryFirst, beforeIdThenPrice,
    reciprocalDirection, execute, executeChecks, has_expired, verify_price,
    formedPrice, Order.executed, Order.price_to_volume, s6, s6out, la6, la6im,
    rb6, c7, usdAsset, futAsset, baseOrder] <;>
    simp <;> norm_num

/-- The code's price formation equals the amended formula: argument-order
tie-break on equal `created_at`. -/
theorem formedPrice_eq_amended (a b : Order) :
    formedPrice a b = amendedFormedPrice a b := by
  unfold formedPrice amendedFormedPrice
  by_cases hle : a.created_at ≤ b.created_at <;> simp [hle]

/-- A successful validation cascade prices its transaction by
`formedPrice`. -/
theorem executeChecks_ok_price {now : Time} {first_order second_order f s : Order}
    {tx : Transaction}
    (H : executeChecks now first_order second_order = .ok (f, s, tx)) :
    formedPrice first_order second_order = some tx.price := by
  unfold executeChecks at H
  split at H
  · exact absurd H (by simp)
  split at H
  · exact absurd H (by simp)
  split at H
  · exact absurd H (by simp)
  split at H
  · exact absurd H (by simp)
  split at H
  · exact absurd H (by simp)
  split at H
  · exact absurd H (by simp)
  split at H
  · exact absurd H (by simp)
  next price heq =>
    split at H
    · exact absurd H (by simp)
    · simp only [Except.ok.injEq, Prod.mk.injEq] at H
      rw [heq, ← H.2.2]

/-- C4 amended: the traded price of every transaction built by `execute`
follows the earliest-order formula with ties on `created_at` broken in
favour of the first argument (in `put_order`, the incoming order) — not by
the lower id. -/
theorem claim_C4_tie_broken_by_argument_order (now : Time)
    (first_order second_order f s : Order) (tx : Transaction)
    (H : executeChecks now first_order second_order = .ok (f, s, tx)) :
    some tx.price = amendedFormedPrice first_order second_order := by
  rw [← formedPrice_eq_amended]
  exact (executeChecks_ok_price H).symm

/-- Witness for the C4 amended theorem at the concrete tie `f4`/`s4`. -/
theorem claim_C4_tie_broken_by_argument_order_witness :
    some c4TxOut.price = amendedFormedPrice f4 s4 :=
  claim_C4_tie_broken_by_argument_order 200 f4 s4 c4BidOut c4AskOut c4TxOut
    (by
      norm_num [executeChecks, f4, s4, c4BidOut, c4AskOut, c4TxOut, baseOrder,
        has_expired, verify_price, formedPrice, Order.executed] <;>
      simp <;> norm_num)

/-- Calling `create_holding` on an asset id present in the registry never raises:
every guard failure returns `None`. -/
theorem create_holding_found_ok {assets : List Asset} {aid : Nat}
    (hasset : (assets.find? (fun x => x.id == aid)).isSome = true)
    (hs : List Holding) (u : Nat) (v : Rat) :
    ∃ r, create_holding assets hs u (some aid) v = .ok r := by
  obtain ⟨asset, hfind⟩ := Option.isSome_iff_exists.mp hasset
  unfold create_holding
  dsimp only
  rw [hfind]
  by_cases h1 : asset.removed = true
  · exact ⟨none, by simp [h1]⟩
  · by_cases h2 : v = 0
    · exact ⟨none, by simp [h1, h2]⟩
    · by_cases h3 : v < 0 ∧ balanceOf hs u aid + v < 0
      · exact ⟨none, by simp [h1, h2, h3]⟩
      · exact ⟨some ⟨u, aid, v, "InternalTrade", none⟩, by simp [h1, h2, h3]⟩

/-- Calling `increase_volume_of_asset` on a registered asset id never raises. -/
theorem increase_found_ok {assets : List Asset} {aid : Nat}
    (hasset : (assets.find? (fun x => x.id == aid)).isSome = true)
    (hs : List Holding) (u : Nat) (v : Rat) :
    ∃ hs2, increase_volume_of_asset assets hs u (some aid) v = .ok hs2 := by
  obtain ⟨r, hr⟩ := create_holding_found_ok hasset hs u v
  unfold increase_volume_of_asset
  rw [hr]
  cases r with
  | none => exact ⟨hs, rfl⟩
  | some h => exact ⟨hs ++ [h], rfl⟩

/-- The distribution loop of `expire` completes whenever the total is
nonzero and the collateral asset is registered. -/
theorem distributeCollateral_ok (assets : List Asset) (aid : Nat)
    (collateral total : Rat) (htot : ¬ total = 0)
    (hasset : (assets.find? (fun x => x.id == aid)).isSome = true) :
    ∀ (groups : List (Nat × Rat)) (hs : List Holding),
      ∃ hs2, distributeCollateral assets aid collateral total groups hs = .ok hs2 := by
  intro groups
  induction groups with
  | nil => exact fun hs => ⟨hs, rfl⟩
  | cons p rest ih =>
    intro hs
    obtain ⟨u, v⟩ := p
    unfold distributeCollateral
    rw [if_neg htot]
    obtain ⟨hs1, hinc⟩ := increase_found_ok hasset hs u (v / total * collateral)
    rw [hinc]
    exact ih hs1

/-- C8 amended: when the holder groups of the contract asset sum to zero,
`expire` completes without error only in the degenerate case that there are
no holder groups at all (then nothing is distributed and `expired` is set);
as soon as at least one holder group exists — e.g. a holder credited and
then fully debited — the pro-rata division raises `ZeroDivisionError` and
the contract stays unexpired. -/
theorem claim_C8_zero_total_behaviour (s : Session) (c : FuturesContract)
    (hexp : c.expired = false)
    (htot : ((users_that_hold_asset s.holdings c.contract_asset).map Prod.snd).sum = 0) :
    (users_that_hold_asset s.holdings c.contract_asset = [] →
      FuturesContract.expire s c =
        .ok () { s with contracts := s.contracts.map (fun x =>
          if x.id == c.id then { x with expired := true } else x) }) ∧
    (users_that_hold_asset s.holdings c.contract_asset ≠ [] →
      FuturesContract.expire s c = .raised .zeroDivision s) := by
  constructor
  · intro hn
    unfold FuturesContract.expire
    simp [hexp, hn, distributeCollateral]
  · intro hne
    unfold FuturesContract.expire
    cases hg : users_that_hold_asset s.holdings c.contract_asset with
    | nil => exact absurd hg hne
    | cons p rest =>
      obtain ⟨u, v⟩ := p
      rw [hg] at htot
      simp only [List.map_cons, List.sum_cons] at htot
      simp [hexp, hg, distributeCollateral, htot]

/-- Witness for the C8 amended theorem: a contract asset with no holdings
at all — `expire` completes and merely flags the contract. -/
theorem claim_C8_zero_total_behaviour_witness :
    FuturesContract.expire s8e c1a =
      .ok () { s8e with contracts := s8e.contracts.map (fun x =>
        if x.id == c1a.id then { x with expired := true } else x) } :=
  (claim_C8_zero_total_behaviour s8e c1a rfl
      (by norm_num [users_that_hold_asset, s8e])).1
    (by norm_num [users_that_hold_asset, s8e])

/-- C10 amended: `expire` guards only on the `expired` flag — it reads
neither the clock nor `cancelled` (the embedding takes no time argument
because the method never consults one).  Whenever the division is defined
(no holder groups, or a nonzero holder total with the collateral asset
registered) it distributes and sets `expired := true` while leaving
`cancelled` as it was — so a cancelled, unexpired contract is expired in
place; but when holder groups exist and net to zero (the state `cancel`
leaves behind) it raises `ZeroDivisionError` instead. -/
theorem claim_C10_expire_guards_only_on_expired (s : Session) (c : FuturesContract)
    (hexp : c.expired = false)
    (hdiv : users_that_hold_asset s.holdings c.contract_asset = [] ∨
      (¬ ((users_that_hold_asset s.holdings c.contract_asset).map Prod.snd).sum = 0 ∧
        ((s.assets.find? (fun x => x.id == c.asset)).isSome = true))) :
    ∃ hs2, FuturesContract.expire s c =
      .ok () { s with holdings := hs2
                      contracts := s.contracts.map (fun x =>
                        if x.id == c.id then { x with expired := true } else x) } := by
  unfold FuturesContract.expire
  cases hdiv with
  | inl hn =>
    refine ⟨s.holdings, ?_⟩
    simp [hexp, hn, distributeCollateral]
  | inr hd =>
    obtain ⟨htot, hasset⟩ := hd
    obtain ⟨hs2, hdist⟩ :=
      distributeCollateral_ok s.assets c.asset c.volume
        (((users_that_hold_asset s.holdings c.contract_asset).map Prod.snd).sum)
        htot hasset (users_that_hold_asset s.holdings c.contract_asset) s.holdings
    refine ⟨hs2, ?_⟩
    simp [hexp, hdist]

/-- Witness for the C10 amended theorem: a cancelled but unexpired contract
with a positive holder group is expired in place, ending with both flags
set. -/
theorem claim_C10_expire_guards_only_on_expired_witness :
    (∃ hs2, FuturesContract.expire s10b c1c =
      .ok () { s10b with holdings := hs2
                         contracts := s10b.contracts.map (fun x =>
                           if x.id == c1c.id then { x with expired := true } else x) }) ∧
    c1c.cancelled = true ∧ ({ c1c with expired := true } : FuturesContract).cancelled = true :=
  ⟨claim_C10_expire_guards_only_on_expired s10b c1c rfl
      (Or.inr ⟨by norm_num [users_that_hold_asset, s10b, c1c, c1a],
        by norm_num [s10b, usdAsset, futAsset, c1c, c1a]⟩),
    rfl, rfl⟩

/-- The only exception `create_holding` can raise is the `AttributeError`
from dereferencing a null or dangling asset. -/
theorem create_holding_error_attr {assets : List Asset} {hs : List Holding}
    {u : Nat} {a : Option Nat} {v : Rat} {e : PyErr}
    (H : create_holding assets hs u a v = .error e) : e = .attributeError := by
  unfold create_holding at H
  cases a with
  | none => dsimp only at H; injection H with h; exact h.symm
  | some aid =>
    dsimp only at H
    cases hf : assets.find? (fun x => x.id == aid) with
    | none => rw [hf] at H; injection H with h; exact h.symm
    | some asset =>
      rw [hf] at H
      dsimp only at H
      split at H
      · simp at H
      · split at H
        · simp at H
        · split at H
          · simp at H
          · simp at H

/-- The wrapper `increase_volume_of_asset` raises only `AttributeError`. -/
theorem increase_error_attr {assets : List Asset} {hs : List Holding}
    {u : Nat} {a : Option Nat} {v : Rat} {e : PyErr}
    (H : increase_volume_of_asset assets hs u a v = .error e) : e = .attributeError := by
  unfold increase_volume_of_asset at H
  cases hch : create_holding assets hs u a v with
  | error e2 =>
    rw [hch] at H
    dsimp only at H
    injection H with h
    exact h ▸ create_holding_error_attr hch
  | ok r =>
    rw [hch] at H
    cases r <;> simp at H

/-- The settlement step `execute_trade` raises only `AttributeError` (through the two ledger
credits). -/
theorem execute_trade_error_attr {now : Time} {s : Session} {t : Transaction}
    {e : PyErr} {hs : List Holding}
    (H : execute_trade now s t = .error (e, hs)) : e = .attributeError := by
  unfold execute_trade at H
  cases hex : t.executed_at with
  | some x => rw [hex] at H; simp at H
  | none =>
    rw [hex] at H
    dsimp only at H
    cases h1 : increase_volume_of_asset s.assets s.holdings t.bid_order.user
        ((s.contracts.find? (fun c => c.id == t.contract)).map
          FuturesContract.contract_asset) t.volume with
    | error e1 =>
      rw [h1] at H
      dsimp only at H
      injection H with h
      have h2 : e1 = e := congrArg Prod.fst h
      exact h2 ▸ increase_error_attr h1
    | ok hs1 =>
      rw [h1] at H
      dsimp only at H
      cases h2 : increase_volume_of_asset s.assets hs1 t.ask_order.user t.asset t.price with
      | error e2 =>
        rw [h2] at H
        dsimp only at H
        injection H with h
        have h3 : e2 = e := congrArg Prod.fst h
        exact h3 ▸ increase_error_attr h2
      | ok hs2 =>
        rw [h2] at H
        simp at H

/-- If `execute` lets a `MarketException` escape, it came from the
validation cascade, before any mutation: the session is returned as it was
passed in. -/
theorem execute_raised_market {now : Time} {s : Session} {a b : Order}
    {me : MarketErr} {sOut : Session}
    (H : execute now s a b = .raised (.market me) sOut) :
    executeChecks now a b = .error me ∧ sOut = s := by
  unfold execute at H
  cases hc : executeChecks now a b with
  | error e2 =>
    rw [hc] at H
    dsimp only at H
    simp only [OpOutcome.raised.injEq, PyErr.market.injEq] at H
    exact ⟨by rw [H.1], H.2.symm⟩
  | ok trip =>
    obtain ⟨f, sec, tx⟩ := trip
    rw [hc] at H
    dsimp only at H
    split at H
    next _ e2 hs heq => simp at H
    next _ pe hs hne heq =>
      simp only [OpOutcome.raised.injEq] at H
      exact (hne me H.1).elim
    next _ heq => simp at H
    next _ hs2 tx2 heq => simp at H

/-- The refund path `Order.cancel` raises only `AttributeError` (dangling contract or asset
references during the refund). -/
theorem order_cancel_raised_attr {s : Session} {o : Order} {e : PyErr}
    {sOut : Session} (H : Order.cancel s o = .raised e sOut) :
    e = .attributeError := by
  unfold Order.cancel at H
  split at H
  · dsimp only at H
    split at H
    next e1 heq =>
      simp only [OpOutcome.raised.injEq] at H
      rw [← H.1]
      split at heq
      · cases hf : s.contracts.find? (fun c => c.id == o.contract) with
        | none => rw [hf] at heq; injection heq with h; exact h.symm
        | some c => rw [hf] at heq; simp at heq
      · simp at heq
    next aid vol? heq =>
      split at H
      next e2 heq2 =>
        simp only [OpOutcome.raised.injEq] at H
        rw [← H.1]
        split at heq2
        · cases hf : s.assets.find? (fun x => x.id == aid) with
          | none => rw [hf] at heq2; injection heq2 with h; exact h.symm
          | some x => rw [hf] at heq2; simp at heq2
        · exact increase_error_attr heq2
      next hs heq2 => simp at H
  · simp at H

/-- The property `Order.price_to_volume` raises `TypeError` or a division error, never a
`MarketException`. -/
theorem price_to_volume_not_market {o : Order} {e : PyErr}
    (H : Order.price_to_volume o = .error e) :
    e = .typeError ∨ e = .zeroDivision := by
  unfold Order.price_to_volume at H
  cases hp : o.price with
  | none => rw [hp] at H; injection H with h; exact Or.inl h.symm
  | some p =>
    rw [hp] at H
    dsimp only at H
    split at H
    · injection H with h; exact Or.inr h.symm
    · simp at H

/-- After `putRow`, looking the row's id up finds exactly the new row (the
replaced-in-place case). -/
theorem find_replace_of_any (o : Order) :
    ∀ l : List Order, l.any (fun x => x.id == o.id) = true →
      (l.map (fun x => if x.id == o.id then o else x)).find?
        (fun r => r.id == o.id) = some o := by
  intro l
  induction l with
  | nil => intro h; simp at h
  | cons x xs ih =>
    intro h
    by_cases hx : (x.id == o.id) = true
    · simp [List.find?, hx]
    · have h2 : xs.any (fun x => x.id == o.id) = true := by
        simp only [List.any_cons, hx, Bool.false_or] at h
        exact h
      simp only [List.map_cons, if_neg hx]
      rw [List.find?_cons_of_neg _ (by simpa using hx)]
      exact ih h2

/-- After `putRow`, looking the row's id up finds exactly the new row (the
appended case). -/
theorem find_append_of_none (o : Order) :
    ∀ l : List Order, l.any (fun x => x.id == o.id) = false →
      (l ++ [o]).find? (fun r => r.id == o.id) = some o := by
  intro l
  induction l with
  | nil => intro _; simp [List.find?]
  | cons x xs ih =>
    intro h
    simp only [List.any_cons, Bool.or_eq_false_iff] at h
    obtain ⟨hx, hxs⟩ := h
    simp only [List.cons_append]
    rw [List.find?_cons_of_neg _ (by simp [hx])]
    exact ih hxs

/-- The session row a `putRow` leaves for the row's id is the row itself. -/
theorem putRow_find (l : List Order) (o : Order) :
    (putRow l o).find? (fun r => r.id == o.id) = some o := by
  unfold putRow
  cases hany : l.any (fun x => x.id == o.id) with
  | true => rw [if_pos rfl]; exact find_replace_of_any o l hany
  | false => rw [if_neg (by simp)]; exact find_append_of_none o l hany

/-- C6 amended: `put_order` does propagate exceptions — any
`MarketException` raised by `execute`'s validation cascade (expiry, price
verification, …) escapes to the caller rather than becoming a null result
(only the settlement try-block is guarded, and its failure mode is not a
`MarketException`).  What survives of the claim: the submitted order was
already committed InMarket, so when the exception escapes the order is
resting in the book. -/
theorem claim_C6_check_errors_propagate (now : Time) (s : Session) (o : Order)
    (e : MarketErr) (sOut : Session)
    (hstate : o.state = OrderState.created)
    (H : put_order now s o = .raised (.market e) sOut) :
    ∃ oOut, sOut.orders.find? (fun r => r.id == o.id) = some oOut ∧
      oOut.state = OrderState.in_market := by
  unfold put_order at H
  rw [if_neg (by simp [hstate])] at H
  dsimp only at H
  split at H
  · split at H
    next r hmc =>
      obtain ⟨hchecks, hsOut⟩ := execute_raised_market H
      subst hsOut
      exact ⟨{ o with state := OrderState.in_market },
        putRow_find s.orders { o with state := OrderState.in_market }, rfl⟩
    next hmc =>
      split at H
      next e2 s2 hcan =>
        have hattr := order_cancel_raised_attr hcan
        simp only [OpOutcome.raised.injEq] at H
        rw [hattr] at H
        exact absurd H.1 (by simp)
      next b s2 hcan => simp at H
  · split at H
    next r hq =>
      obtain ⟨hchecks, hsOut⟩ := execute_raised_market H
      subst hsOut
      exact ⟨{ o with state := OrderState.in_market },
        putRow_find s.orders { o with state := OrderState.in_market }, rfl⟩
    next hq =>
      split at H
      next e2 hpv =>
        simp only [OpOutcome.raised.injEq] at H
        rcases price_to_volume_not_market hpv with h | h <;>
          (rw [h] at H; exact absurd H.1 (by simp))
      next ratio hpv =>
        split at H
        · simp only [OpOutcome.raised.injEq] at H
          exact absurd H.1 (by simp)
        · split at H
          next r hq2 =>
            obtain ⟨hchecks, hsOut⟩ := execute_raised_market H
            subst hsOut
            exact ⟨{ o with state := OrderState.in_market },
              putRow_find s.orders { o with state := OrderState.in_market }, rfl⟩
          next hq2 => simp at H

/-- Witness for the C6 amended theorem at the concrete badPrice run: the
session the exception leaves behind holds the submitted order InMarket. -/
theorem claim_C6_check_errors_propagate_witness :
    ∃ oOut, s6out.orders.find? (fun r => r.id == la6.id) = some oOut ∧
      oOut.state = OrderState.in_market :=
  claim_C6_check_errors_propagate 60 s6 la6 .badPrice s6out rfl
    (by
      norm_num [put_order, putRow, baseCandidates, queryFirst,
        beforeIdThenPrice, reciprocalDirection, execute, executeChecks,
        has_expired, verify_price, formedPrice, Order.executed,
        Order.price_to_volume, s6, s6out, la6, la6im, rb6, c7, usdAsset,
        futAsset, baseOrder] <;>
      simp <;> norm_num)

end Btcex
